import Mathlib

/-!
Shallow embedding of the reminder/notification scheduling and change-detection
core of the `extension-todo` browser extension, together with theorems checking
the natural-language specification against the code.

The embedding covers:
* the background poll cycle for the GitHub and Gmail sources
  (`checkGitHubUpdates`, `checkGmailUpdates`, the `refreshData` alarm branch);
* the snapshot load/commit behaviour on `chrome.storage.local`
  (`lastKnownIssues` / `lastKnownEmails` keys);
* the reminder scheduler (`scheduleReminder`, `cancelReminders`,
  `rescheduleReminders`, `getUpcomingReminders`) and the wake handler
  (`handleReminderAlarm`).

External collaborators (the two HTTP fetchers, `chrome.storage`,
`chrome.alarms`, `chrome.notifications`) are modelled as explicit inputs,
explicit state, and explicit outputs: a fetch is an `Except` value supplied by
the environment, the storage keys are fields of a state record, the alarm
facility is a list of live alarms, and dispatched notifications are returned
as values.  JavaScript strings appearing in alarm keys are modelled as
`List Char` so that splitting and prefix tests can be reasoned about directly.
-/

namespace ExtensionTodo

/-! ## Poll subsystem: data model -/

/-- A GitHub issue as returned by `fetchColumnCards` (only the fields the
background poll reads: `id` and `title`). -/
structure GitHubIssue where
  id : String
  title : String
deriving DecidableEq, Repr, Inhabited

/-- A Gmail message as returned by `fetchEmails` (only the fields the
background poll reads: `id`, `from`, `subject`).  The source field `from` is a
Lean keyword, hence `emailFrom`. -/
structure GmailEmail where
  id : String
  emailFrom : String
  subject : String
deriving DecidableEq, Repr, Inhabited

/-- A value persisted under a `chrome.storage.local` key, as far as the
snapshot-loading code can distinguish it: absent, a (string-)array, or any
non-array JSON value.  The poll code only ever stores arrays of id strings. -/
inductive StoredVal where
  /-- The key is not present in storage. -/
  | absent : StoredVal
  /-- An array value (the code stores the current id list here). -/
  | arr : List String → StoredVal
  /-- Any persisted JSON value that is not an array. -/
  | notArr : StoredVal
deriving DecidableEq, Repr

/-- Snapshot loading as performed inline by both poll functions:
`Array.isArray(v) ? v : []` — an array is taken as-is, anything else
(including an absent key) yields the empty id list, never an error. -/
def loadIds : StoredVal → List String
  | .arr ids => ids
  | .absent => []
  | .notArr => []

/-- The background page's persistent state: the two snapshot keys of
`chrome.storage.local`. -/
structure BgState where
  lastKnownIssues : StoredVal
  lastKnownEmails : StoredVal
deriving DecidableEq, Repr

/-- A dispatched `chrome.notifications.create` call: its notification id,
title and message. -/
structure Notification where
  nid : String
  title : String
  message : String
deriving DecidableEq, Repr

/-- The change detector, as written inline in both poll functions
(`issues.filter(i => !lastKnownIds.includes(i.id))`, line 66, and
`emails.filter(e => !lastKnownIds.includes(e.id))`, line 128): keep the
fetched items whose id is not contained in the previously stored id list. -/
def detectNew {α : Type} (getId : α → String) (current : List α)
    (previous : List String) : List α :=
  current.filter (fun i => !(previous.contains (getId i)))

/-! ## Poll subsystem: the two source cycles -/

/-- GitHub settings as read by `getGitHubSettings`; the poll only consults
`token` and `columnId` (`if (!settings.token || !settings.columnId) return`,
where the empty string is falsy). -/
structure GitHubSettings where
  token : String
  columnId : String
deriving DecidableEq, Repr

/-- The environment of one GitHub poll cycle: the stored settings, the result
of the `fetchColumnCards` call (`.error` models the fetch throwing), and the
value of `Date.now()` used for the notification id. -/
structure GitHubEnv where
  settings : GitHubSettings
  fetchResult : Except String (List GitHubIssue)
  now : Int
deriving Repr

/-- The environment of one Gmail poll cycle: the silently obtained auth token
(`none` models `chrome.identity.getAuthToken` yielding no token), the result
of the `fetchEmails` call, and the value of `Date.now()`. -/
structure GmailEnv where
  token : Option String
  fetchResult : Except String (List GmailEmail)
  now : Int
deriving Repr

/-- JavaScript falsiness of the token value the Gmail poll checks with
`if (!token)`: absent or the empty string. -/
def tokenFalsy : Option String → Bool
  | none => true
  | some s => s == ""

/-- `checkGitHubUpdates` (background script, lines 51–95).  The whole body is
wrapped in `try { … } catch { log }`, whose only failure source in this model
is the fetch; the `.error` branch therefore returns with the state unchanged
and no notification.  On success: compute `currentIds`, load the stored
snapshot tolerating malformed values, filter the new issues, dispatch at most
one summarizing notification, and unconditionally overwrite the snapshot with
`currentIds`. -/
def checkGitHubUpdates (env : GitHubEnv) (st : BgState) :
    BgState × List Notification :=
  if env.settings.token = "" ∨ env.settings.columnId = "" then (st, [])
  else
    match env.fetchResult with
    | .error _ => (st, [])
    | .ok issues =>
      let currentIds := issues.map (·.id)
      let lastKnownIds := loadIds st.lastKnownIssues
      let newIssues := detectNew (·.id) issues lastKnownIds
      let notifs :=
        if newIssues.length > 0 then
          [{ nid := "github_" ++ toString env.now
             title :=
               if newIssues.length = 1 then "Nouvelle tâche GitHub"
               else toString newIssues.length ++ " nouvelles tâches GitHub"
             message :=
               if newIssues.length = 1 then newIssues.headI.title
               else newIssues.headI.title ++ " et "
                    ++ toString (newIssues.length - 1) ++ " autres..." }]
        else []
      ({ st with lastKnownIssues := .arr currentIds }, notifs)

/-- `checkGmailUpdates` (background script, lines 98–156).  Structure mirrors
the GitHub cycle: silent skip without a usable token, `.error` fetch caught
with no state change, otherwise diff against the tolerated snapshot, at most
one summarizing notification, unconditional snapshot overwrite. -/
def checkGmailUpdates (env : GmailEnv) (st : BgState) :
    BgState × List Notification :=
  if tokenFalsy env.token then (st, [])
  else
    match env.fetchResult with
    | .error _ => (st, [])
    | .ok emails =>
      let currentIds := emails.map (·.id)
      let lastKnownIds := loadIds st.lastKnownEmails
      let newEmails := detectNew (·.id) emails lastKnownIds
      let notifs :=
        if newEmails.length > 0 then
          [{ nid := "gmail_" ++ toString env.now
             title :=
               if newEmails.length = 1 then "Nouveau mail reçu"
               else toString newEmails.length ++ " nouveaux mails"
             message :=
               if newEmails.length = 1 then
                 "De: " ++ newEmails.headI.emailFrom ++ "\n"
                   ++ newEmails.headI.subject
               else "Dernier de: " ++ newEmails.headI.emailFrom }]
        else []
      ({ st with lastKnownEmails := .arr currentIds }, notifs)

/-- The `refreshData` branch of the alarm listener (lines 19–21):
`await checkGitHubUpdates(); await checkGmailUpdates();` — the GitHub cycle
runs first, then the Gmail cycle on the resulting state; the dispatched
notifications accumulate. -/
def refreshData (ghEnv : GitHubEnv) (gmEnv : GmailEnv) (st : BgState) :
    BgState × List Notification :=
  let gh := checkGitHubUpdates ghEnv st
  let gm := checkGmailUpdates gmEnv gh.1
  (gm.1, gh.2 ++ gm.2)

/-- The change detector exactly as the specification words it: keep the items
of `current` whose id is not a member of the `previous` set. -/
def detectNewSpec {α : Type} (getId : α → String) (current : List α)
    (previous : List String) : List α :=
  current.filter (fun i => decide (getId i ∉ previous))

/-! ## Theorems: poll subsystem -/

/-- C1: for every previously-stored id set and every fetched sequence, the
computed new-items sequence is exactly the subsequence of the fetched items
whose id is not a member of the stored set, in the original fetch order
(equality with the membership-based filter of the specification), and applying
the detection again to its own output changes nothing (idempotent; the
function is pure, so recomputation with the same arguments is definitionally
the same value). -/
theorem detectNew_correct {α : Type} (getId : α → String) (current : List α)
    (previous : List String) :
    detectNew getId current previous = detectNewSpec getId current previous ∧
    detectNew getId (detectNew getId current previous) previous
      = detectNew getId current previous := by
  constructor
  · unfold detectNew detectNewSpec
    apply List.filter_congr
    intro x _
    simp [List.elem_eq_mem]
  · unfold detectNew
    rw [List.filter_filter]
    simp

/-- C7: loading a persisted snapshot value never fails: an absent key or a
non-array value loads as the empty id list, an array loads as itself, and
diffing any fetch against a snapshot loaded from an absent or malformed value
reports every fetched item as new. -/
theorem loadIds_tolerates_malformed :
    loadIds .absent = [] ∧ loadIds .notArr = [] ∧
    (∀ ids : List String, loadIds (.arr ids) = ids) ∧
    (∀ (α : Type) (getId : α → String) (current : List α),
      detectNew getId current (loadIds .absent) = current ∧
      detectNew getId current (loadIds .notArr) = current) := by
  refine ⟨rfl, rfl, fun _ => rfl, fun α getId current => ⟨?_, ?_⟩⟩ <;>
    simp [detectNew, loadIds]

/-- The GitHub cycle never touches the Gmail snapshot key. -/
theorem checkGitHubUpdates_frame (env : GitHubEnv) (st : BgState) :
    (checkGitHubUpdates env st).1.lastKnownEmails = st.lastKnownEmails := by
  unfold checkGitHubUpdates
  split
  · rfl
  · split <;> rfl

/-- The Gmail cycle never touches the GitHub snapshot key. -/
theorem checkGmailUpdates_frame (env : GmailEnv) (st : BgState) :
    (checkGmailUpdates env st).1.lastKnownIssues = st.lastKnownIssues := by
  unfold checkGmailUpdates
  split
  · rfl
  · split <;> rfl

/-- C2: if a source's fetch throws, that source's cycle leaves the state
(and in particular its own snapshot) exactly as it was and dispatches nothing,
the error is absorbed (the cycle still returns a value), and the other
source's cycle in the same `refreshData` poll runs to completion exactly as it
would have on the untouched state. -/
theorem fetch_failure_atomic (ghEnv : GitHubEnv) (gmEnv : GmailEnv)
    (st : BgState) (e e' : String) :
    (ghEnv.fetchResult = .error e →
      checkGitHubUpdates ghEnv st = (st, []) ∧
      refreshData ghEnv gmEnv st = checkGmailUpdates gmEnv st) ∧
    (gmEnv.fetchResult = .error e' →
      checkGmailUpdates gmEnv (checkGitHubUpdates ghEnv st).1
        = ((checkGitHubUpdates ghEnv st).1, []) ∧
      refreshData ghEnv gmEnv st = checkGitHubUpdates ghEnv st ∧
      (refreshData ghEnv gmEnv st).1.lastKnownEmails = st.lastKnownEmails) := by
  constructor
  · intro h
    have hgh : checkGitHubUpdates ghEnv st = (st, []) := by
      unfold checkGitHubUpdates
      split
      · rfl
      · rw [h]
    refine ⟨hgh, ?_⟩
    unfold refreshData
    rw [hgh]
    simp
  · intro h
    have hgm : ∀ st' : BgState, checkGmailUpdates gmEnv st' = (st', []) := by
      intro st'
      unfold checkGmailUpdates
      split
      · rfl
      · rw [h]
    refine ⟨hgm _, ?_, ?_⟩
    · simp only [refreshData, hgm]
      simp
    · simp only [refreshData, hgm]
      simpa using checkGitHubUpdates_frame ghEnv st

/-- C2 witness: with a failing GitHub fetch and a failing Gmail fetch on a
concrete state, the state survives unchanged and no notification is
dispatched. -/
theorem fetch_failure_atomic_witness :
    checkGitHubUpdates
        { settings := { token := "t", columnId := "c" },
          fetchResult := .error ("FetchError"), now := 0 }
        { lastKnownIssues := .arr ["a"], lastKnownEmails := .arr ["b"] }
      = ({ lastKnownIssues := .arr ["a"], lastKnownEmails := .arr ["b"] }, [])
    ∧ refreshData
        { settings := { token := "t", columnId := "c" },
          fetchResult := .error ("FetchError"), now := 0 }
        { token := some ("tok"), fetchResult := .error ("FetchError"), now := 0 }
        { lastKnownIssues := .arr ["a"], lastKnownEmails := .arr ["b"] }
      = ({ lastKnownIssues := .arr ["a"], lastKnownEmails := .arr ["b"] }, []) := by
  have h := fetch_failure_atomic
    { settings := { token := "t", columnId := "c" },
      fetchResult := .error ("FetchError"), now := 0 }
    { token := some ("tok"), fetchResult := .error ("FetchError"), now := 0 }
    { lastKnownIssues := .arr ["a"], lastKnownEmails := .arr ["b"] }
    "FetchError" "FetchError"
  refine ⟨(h.1 rfl).1, ?_⟩
  rw [(h.1 rfl).2]
  exact ((h.2 rfl).1).trans (by rw [(h.1 rfl).1])

/-- C3: a successful poll cycle of either source commits, as that source's new
snapshot, exactly the id list of the items fetched in that cycle — a full
replacement, performed whether or not any new items were detected. -/
theorem snapshot_full_replace (ghEnv : GitHubEnv) (gmEnv : GmailEnv)
    (st : BgState) (issues : List GitHubIssue) (emails : List GmailEmail) :
    (¬ (ghEnv.settings.token = "" ∨ ghEnv.settings.columnId = "") →
      ghEnv.fetchResult = .ok issues →
      (checkGitHubUpdates ghEnv st).1.lastKnownIssues
        = .arr (issues.map (·.id))) ∧
    (tokenFalsy gmEnv.token = false →
      gmEnv.fetchResult = .ok emails →
      (checkGmailUpdates gmEnv st).1.lastKnownEmails
        = .arr (emails.map (·.id))) := by
  constructor
  · intro hs hf
    unfold checkGitHubUpdates
    rw [if_neg hs, hf]
  · intro hs hf
    unfold checkGmailUpdates
    rw [hs, hf]
    simp

/-- C3 witness, the specification's own scenario: previous snapshot
`["a", "b"]`, current fetch `[{id := "c"}, {id := "a"}]` — the committed
snapshot is `["c", "a"]`: `"a"` is kept only because it was fetched again, and
`"b"` is dropped. -/
theorem snapshot_full_replace_witness :
    (checkGitHubUpdates
        { settings := { token := "t", columnId := "c" },
          fetchResult := .ok [{ id := "c", title := "C" },
                              { id := "a", title := "A" }], now := 0 }
        { lastKnownIssues := .arr ["a", "b"],
          lastKnownEmails := .absent }).1.lastKnownIssues
      = .arr ["c", "a"] := by
  have h := (snapshot_full_replace
    { settings := { token := "t", columnId := "c" },
      fetchResult := .ok [{ id := "c", title := "C" },
                          { id := "a", title := "A" }], now := 0 }
    { token := none, fetchResult := .error ("e"), now := 0 }
    { lastKnownIssues := .arr ["a", "b"], lastKnownEmails := .absent }
    [{ id := "c", title := "C" }, { id := "a", title := "A" }] []).1
  exact h (by simp) rfl

/-- C8 counterexample: a Gmail cycle that detects three new emails dispatches
one notification whose body is `"Dernier de: alice"` — the first sender only.
The body does not even contain the character `'2'`, so it carries no
"+2 others" (count = 3, N = count − 1 = 2) suffix, contradicting the claim
that both sources append a "+N others" suffix for multiple new items. -/
theorem gmail_body_lacks_others_suffix :
    (checkGmailUpdates
        { token := some ("tok"),
          fetchResult := .ok
            [{ id := "m1", emailFrom := "alice", subject := "s1" },
             { id := "m2", emailFrom := "bob", subject := "s2" },
             { id := "m3", emailFrom := "carol", subject := "s3" }],
          now := 7 }
        { lastKnownIssues := .absent, lastKnownEmails := .absent }).2
      = [{ nid := "gmail_7", title := "3 nouveaux mails",
           message := "Dernier de: alice" }]
    ∧ '2' ∉ "Dernier de: alice".data := by
  decide

/-- C8 as amended: in every poll cycle where the new-items sequence is
non-empty, exactly one notification is dispatched; its title uses singular
wording for count 1 and plural wording including the count otherwise; its
body for a single new item is that item's summary (issue title, resp.
sender and subject); for multiple new items the GitHub body is the first new
issue's title with an " et N autres..." (N = count − 1) suffix, while the
Gmail body is `"Dernier de: "` and the first new email's sender, with no
count suffix. -/
theorem notification_summarization (ghEnv : GitHubEnv) (gmEnv : GmailEnv)
    (st : BgState) (issues : List GitHubIssue) (emails : List GmailEmail) :
    (¬ (ghEnv.settings.token = "" ∨ ghEnv.settings.columnId = "") →
      ghEnv.fetchResult = .ok issues →
      detectNew (·.id) issues (loadIds st.lastKnownIssues) ≠ [] →
      (checkGitHubUpdates ghEnv st).2 =
        [{ nid := "github_" ++ toString ghEnv.now,
           title :=
             if (detectNew (·.id) issues (loadIds st.lastKnownIssues)).length = 1
             then "Nouvelle tâche GitHub"
             else toString (detectNew (·.id) issues
                    (loadIds st.lastKnownIssues)).length
                  ++ " nouvelles tâches GitHub",
           message :=
             if (detectNew (·.id) issues (loadIds st.lastKnownIssues)).length = 1
             then (detectNew (·.id) issues (loadIds st.lastKnownIssues)).headI.title
             else (detectNew (·.id) issues (loadIds st.lastKnownIssues)).headI.title
                  ++ " et "
                  ++ toString ((detectNew (·.id) issues
                        (loadIds st.lastKnownIssues)).length - 1)
                  ++ " autres..." }]) ∧
    (tokenFalsy gmEnv.token = false →
      gmEnv.fetchResult = .ok emails →
      detectNew (·.id) emails (loadIds st.lastKnownEmails) ≠ [] →
      (checkGmailUpdates gmEnv st).2 =
        [{ nid := "gmail_" ++ toString gmEnv.now,
           title :=
             if (detectNew (·.id) emails (loadIds st.lastKnownEmails)).length = 1
             then "Nouveau mail reçu"
             else toString (detectNew (·.id) emails
                    (loadIds st.lastKnownEmails)).length
                  ++ " nouveaux mails",
           message :=
             if (detectNew (·.id) emails (loadIds st.lastKnownEmails)).length = 1
             then "De: "
                  ++ (detectNew (·.id) emails
                        (loadIds st.lastKnownEmails)).headI.emailFrom
                  ++ "\n"
                  ++ (detectNew (·.id) emails
                        (loadIds st.lastKnownEmails)).headI.subject
             else "Dernier de: "
                  ++ (detectNew (·.id) emails
                        (loadIds st.lastKnownEmails)).headI.emailFrom }]) := by
  constructor
  · intro hs hf hnew
    unfold checkGitHubUpdates
    rw [if_neg hs, hf]
    have hpos : (detectNew (·.id) issues (loadIds st.lastKnownIssues)).length > 0 :=
      List.length_pos.mpr hnew
    simp only [if_pos hpos]
  · intro hs hf hnew
    unfold checkGmailUpdates
    rw [hs, hf]
    have hpos : (detectNew (·.id) emails (loadIds st.lastKnownEmails)).length > 0 :=
      List.length_pos.mpr hnew
    simp only [Bool.false_eq_true, if_false, if_pos hpos]

/-- C8 witness: a GitHub cycle detecting two new issues (out of three fetched,
one already known) dispatches exactly one notification with the plural title
"2 nouvelles tâches GitHub" and the body "First et 1 autres...". -/
theorem notification_summarization_witness :
    (checkGitHubUpdates
        { settings := { token := "t", columnId := "c" },
          fetchResult := .ok
            [{ id := "i1", title := "First" },
             { id := "i2", title := "Second" },
             { id := "i0", title := "Old" }],
          now := 5 }
        { lastKnownIssues := .arr ["i0"], lastKnownEmails := .absent }).2
      = [{ nid := "github_5", title := "2 nouvelles tâches GitHub",
           message := "First et 1 autres..." }] := by
  have h := (notification_summarization
    { settings := { token := "t", columnId := "c" },
      fetchResult := .ok
        [{ id := "i1", title := "First" },
         { id := "i2", title := "Second" },
         { id := "i0", title := "Old" }],
      now := 5 }
    { token := none, fetchResult := .error ("e"), now := 5 }
    { lastKnownIssues := .arr ["i0"], lastKnownEmails := .absent }
    [{ id := "i1", title := "First" },
     { id := "i2", title := "Second" },
     { id := "i0", title := "Old" }] []).1
    (by simp) rfl (by decide)
  rw [h]
  decide

/-! ## Reminder subsystem: data model

Alarm keys are JavaScript strings built and taken apart by string operations
(template interpolation, `split('_')`, `startsWith`), so here strings are
modelled as `List Char`. -/

/-- The decimal digit character for `n < 10`. -/
def digitChar (n : Nat) : Char := Char.ofNat (48 + n)

/-- Fuel-driven accumulator loop behind `toDecimal`; the fuel only bounds the
recursion depth and any fuel above the number of digits gives the same
result. -/
def toDecimalGo : Nat → Nat → List Char → List Char
  | 0, _, acc => acc
  | fuel + 1, n, acc =>
    if n < 10 then digitChar n :: acc
    else toDecimalGo fuel (n / 10) (digitChar (n % 10) :: acc)

/-- Decimal rendering of a natural number, modelling the `${n}` template
interpolation of a JavaScript number. -/
def toDecimal (n : Nat) : List Char := toDecimalGo (n + 1) n []

/-- Is `c` a decimal digit. -/
def isDigitChar (c : Char) : Bool := '0' ≤ c && c ≤ '9'

/-- Value of a list of digit characters, most significant first. -/
def digitsToNat (l : List Char) : Nat :=
  l.foldl (fun acc c => 10 * acc + (c.toNat - 48)) 0

/-- The maximal leading digit run of `l`, as a number; `none` when `l` does
not start with a digit. -/
def parseDigits (l : List Char) : Option Nat :=
  if l.takeWhile isDigitChar = [] then none
  else some (digitsToNat (l.takeWhile isDigitChar))

/-- Modelled behaviour of JavaScript `parseInt` on the strings the reminder
code feeds it: an optional sign followed by a maximal digit run; `none` models
`NaN`.  (Leading-whitespace skipping and radix detection never arise for
alarm-key parts and are not modelled.) -/
def parseIntJS : List Char → Option Int
  | [] => none
  | c :: rest =>
    if c = '-' then (parseDigits rest).map (fun n => -(n : Int))
    else if c = '+' then (parseDigits rest).map (fun n => (n : Int))
    else (parseDigits (c :: rest)).map (fun n => (n : Int))

/-- JavaScript `name.split('_')`: the (possibly empty) runs of characters
between underscores; the result has one part more than there are
underscores, and is never the empty list. -/
def splitUnderscore : List Char → List (List Char)
  | [] => [[]]
  | c :: cs =>
    if c = '_' then [] :: splitUnderscore cs
    else
      match splitUnderscore cs with
      | [] => [[c]]
      | p :: ps => (c :: p) :: ps

/-- Inverse of `splitUnderscore`: re-join parts with `'_'` separators. -/
def joinUnderscore : List (List Char) → List Char
  | [] => []
  | [p] => p
  | p :: ps => p ++ '_' :: joinUnderscore ps

/-- A live `chrome.alarms` alarm: its name and its `when` fire instant in
epoch milliseconds. -/
structure Alarm where
  name : List Char
  scheduledTime : Int
deriving DecidableEq, Repr

/-- `chrome.alarms.create(name, {when})`: registers a one-shot alarm;
creating an alarm whose name is already taken replaces the old one. -/
def alarmsCreate (alarms : List Alarm) (nm : List Char) (t : Int) :
    List Alarm :=
  alarms.filter (fun a => !(a.name == nm)) ++ [{ name := nm, scheduledTime := t }]

/-- `chrome.alarms.clear(name)`: removes the alarm with that name. -/
def alarmsClear (alarms : List Alarm) (nm : List Char) : List Alarm :=
  alarms.filter (fun a => !(a.name == nm))

/-- The alarm key `` `reminder_${todoId}_` `` that `cancelReminders` matches
with `startsWith`, and that every key built by `scheduleReminder` for
`todoId` extends. -/
def reminderKeyStem (todoId : List Char) : List Char :=
  "reminder_".data ++ todoId ++ "_".data

/-- The alarm key `` `reminder_${todoId}_${reminderMinutes}` `` built by
`scheduleReminder` (gmailService.ts line 331). -/
def reminderKey (todoId : List Char) (reminderMinutes : Nat) : List Char :=
  reminderKeyStem todoId ++ toDecimal reminderMinutes

/-- `scheduleReminder` (gmailService.ts lines 322–340): compute
`reminderTime = startDate - reminderMinutes * 60 * 1000`; if that instant has
passed, return without touching the alarm facility; otherwise create the
one-shot alarm under the reminder key. -/
def scheduleReminder (now : Int) (todoId : List Char) (startDate : Int)
    (reminderMinutes : Nat) (alarms : List Alarm) : List Alarm :=
  let reminderTime := startDate - (reminderMinutes : Int) * 60 * 1000
  if reminderTime ≤ now then alarms
  else alarmsCreate alarms (reminderKey todoId reminderMinutes) reminderTime

/-- `cancelReminders` (gmailService.ts lines 343–351): list all alarms,
keep those whose name starts with `` `reminder_${todoId}_` ``, and clear each
of them by name. -/
def cancelReminders (todoId : List Char) (alarms : List Alarm) : List Alarm :=
  let todoAlarms :=
    alarms.filter (fun a => (reminderKeyStem todoId).isPrefixOf a.name)
  todoAlarms.foldl (fun st a => alarmsClear st a.name) alarms

/-- `rescheduleReminders` (gmailService.ts lines 383–391): cancel every
existing reminder of the todo, then schedule one reminder per lead time. -/
def rescheduleReminders (now : Int) (todoId : List Char) (startDate : Int)
    (reminders : List Nat) (alarms : List Alarm) : List Alarm :=
  reminders.foldl (fun st m => scheduleReminder now todoId startDate m st)
    (cancelReminders todoId alarms)

/-- A todo as read back by the wake handler via `getTodos` (only the fields
the handler consults: `id`, `title`, `completed`). -/
structure Todo where
  id : List Char
  title : List Char
  completed : Bool
deriving DecidableEq, Repr

/-- A reminder notification dispatched by the wake handler. -/
structure ReminderNotif where
  notifId : List Char
  title : List Char
  message : List Char
deriving DecidableEq, Repr

/-- Decimal rendering of an integer (JS `${n}` on a possibly negative
number). -/
def toDecimalInt (i : Int) : List Char :=
  if i < 0 then '-' :: toDecimal i.natAbs else toDecimal i.toNat

/-- `formatReminderTime` (background script lines 158–168) applied to the
result of `parseInt` (`none` models `NaN`: every comparison with `NaN` is
false and the arithmetic stays `NaN`, so that case renders as "NaN jour");
`Math.floor` of the quotients is floor division. -/
def formatReminderTime : Option Int → List Char
  | none => "NaN jour".data
  | some minutes =>
    if minutes < 60 then
      toDecimalInt minutes ++ " minute".data
        ++ (if minutes > 1 then "s".data else [])
    else if minutes < 1440 then
      toDecimalInt (Int.fdiv minutes 60) ++ " heure".data
        ++ (if Int.fdiv minutes 60 > 1 then "s".data else [])
    else
      toDecimalInt (Int.fdiv minutes 1440) ++ " jour".data
        ++ (if Int.fdiv minutes 1440 > 1 then "s".data else [])

/-- `handleReminderAlarm` (background script lines 28–48): split the alarm
name on underscores; with exactly three parts, read the todo list, find the
todo whose id is the middle part, and only if it exists and is not completed
dispatch the reminder notification; in every other case do nothing.  The
function is total: no case raises an error. -/
def handleReminderAlarm (todos : List Todo) (alarmName : List Char) :
    Option ReminderNotif :=
  match splitUnderscore alarmName with
  | [_, todoId, reminderPart] =>
    match todos.find? (fun t => t.id == todoId) with
    | some todo =>
      if !todo.completed then
        some { notifId := alarmName,
               title := "Rappel de tâche".data,
               message := todo.title ++ " commence dans ".data
                 ++ formatReminderTime (parseIntJS reminderPart) }
      else none
    | none => none
  | _ => none

/-- The reminder branch of the `chrome.alarms.onAlarm` listener (background
script lines 16–25): the `refreshData` alarm goes to the poll cycles and
dispatches no reminder notification; names starting with `reminder_` go to
`handleReminderAlarm`; any other fired alarm is ignored. -/
def onAlarmReminder (todos : List Todo) (alarmName : List Char) :
    Option ReminderNotif :=
  if alarmName == "refreshData".data then none
  else if "reminder_".data.isPrefixOf alarmName then
    handleReminderAlarm todos alarmName
  else none

/-- The reminder-key parsing performed by `getUpcomingReminders`
(gmailService.ts lines 394–412), which is also the combined shape test used
on the wake path (`startsWith('reminder_')` in the alarm listener, then the
three-part split of `handleReminderAlarm`): yields the `(todoId,
reminderMinutes)` pair encoded in the key, or `none` when the key does not
have the recognised shape. -/
def parseReminderKey (alarmName : List Char) :
    Option (List Char × Option Int) :=
  if "reminder_".data.isPrefixOf alarmName then
    match splitUnderscore alarmName with
    | [_, todoId, reminderPart] => some (todoId, parseIntJS reminderPart)
    | _ => none
  else none

/-! ## Helper lemmas: decimal rendering and parsing -/

/-- Boolean prefix test agrees with the prefix relation. -/
theorem isPrefixOf_eq_true_iff (l m : List Char) :
    l.isPrefixOf m = true ↔ l <+: m :=
  List.isPrefixOf_iff_prefix

/-- The accumulator of `toDecimalGo` is just appended to the result. -/
theorem toDecimalGo_append (fuel : Nat) :
    ∀ (n : Nat) (acc : List Char),
      toDecimalGo fuel n acc = toDecimalGo fuel n [] ++ acc := by
  induction fuel with
  | zero => intro n acc; simp [toDecimalGo]
  | succ fuel ih =>
    intro n acc
    by_cases h : n < 10
    · simp [toDecimalGo, h]
    · simp only [toDecimalGo, if_neg h]
      rw [ih (n / 10) (digitChar (n % 10) :: acc),
          ih (n / 10) [digitChar (n % 10)], List.append_assoc]
      rfl

/-- Any sufficient fuel gives `toDecimalGo` the same value. -/
theorem toDecimalGo_fuel_irrel (f₁ : Nat) :
    ∀ (f₂ n : Nat) (acc : List Char), n < f₁ → n < f₂ →
      toDecimalGo f₁ n acc = toDecimalGo f₂ n acc := by
  induction f₁ with
  | zero => intro f₂ n acc h₁ _; omega
  | succ f₁ ih =>
    intro f₂ n acc h₁ h₂
    cases f₂ with
    | zero => omega
    | succ f₂ =>
      by_cases h : n < 10
      · simp [toDecimalGo, h]
      · simp only [toDecimalGo, if_neg h]
        exact ih f₂ (n / 10) (digitChar (n % 10) :: acc) (by omega) (by omega)

/-- `toDecimal` on a single-digit number. -/
theorem toDecimal_lt (n : Nat) (h : n < 10) : toDecimal n = [digitChar n] := by
  simp [toDecimal, toDecimalGo, h]

/-- `toDecimal` peels the last digit of a multi-digit number. -/
theorem toDecimal_ge (n : Nat) (h : 10 ≤ n) :
    toDecimal n = toDecimal (n / 10) ++ [digitChar (n % 10)] := by
  have h10 : ¬ n < 10 := by omega
  calc toDecimal n
      = toDecimalGo n (n / 10) [digitChar (n % 10)] := by
        simp [toDecimal, toDecimalGo, h10]
    _ = toDecimalGo (n / 10 + 1) (n / 10) [digitChar (n % 10)] :=
        toDecimalGo_fuel_irrel n (n / 10 + 1) (n / 10) _ (by omega) (by omega)
    _ = toDecimal (n / 10) ++ [digitChar (n % 10)] := by
        rw [toDecimalGo_append]; rfl

/-- The digit character of `n < 10` is a digit with value `n`. -/
theorem digitChar_props (n : Nat) (h : n < 10) :
    isDigitChar (digitChar n) = true ∧ (digitChar n).toNat = 48 + n ∧
      digitChar n ≠ '_' ∧ digitChar n ≠ '-' ∧ digitChar n ≠ '+' := by
  interval_cases n <;> exact ⟨by decide, by decide, by decide, by decide, by decide⟩

/-- Every character of a decimal rendering is a digit. -/
theorem toDecimal_digits (n : Nat) : ∀ c ∈ toDecimal n, isDigitChar c = true := by
  induction n using Nat.strong_induction_on with
  | _ n ih =>
    by_cases h : n < 10
    · rw [toDecimal_lt n h]
      intro c hc
      rw [List.mem_singleton.mp hc]
      exact (digitChar_props n h).1
    · rw [toDecimal_ge n (by omega)]
      intro c hc
      rcases List.mem_append.mp hc with hc | hc
      · exact ih (n / 10) (by omega) c hc
      · rw [List.mem_singleton.mp hc]
        exact (digitChar_props (n % 10) (by omega)).1

/-- A decimal rendering is never empty. -/
theorem toDecimal_ne_nil (n : Nat) : toDecimal n ≠ [] := by
  by_cases h : n < 10
  · rw [toDecimal_lt n h]; simp
  · rw [toDecimal_ge n (by omega)]; simp

/-- A decimal rendering contains no underscore. -/
theorem toDecimal_no_underscore (n : Nat) : '_' ∉ toDecimal n := by
  intro h
  have := toDecimal_digits n '_' h
  simp [isDigitChar] at this

/-- Reading back the digits of a decimal rendering recovers the number. -/
theorem digitsToNat_toDecimal (n : Nat) : digitsToNat (toDecimal n) = n := by
  induction n using Nat.strong_induction_on with
  | _ n ih =>
    by_cases h : n < 10
    · rw [toDecimal_lt n h]
      have := (digitChar_props n h).2.1
      simp [digitsToNat, this]
    · rw [toDecimal_ge n (by omega)]
      unfold digitsToNat
      rw [List.foldl_append]
      have hrec := ih (n / 10) (by omega)
      unfold digitsToNat at hrec
      rw [hrec]
      have := (digitChar_props (n % 10) (by omega)).2.1
      simp only [List.foldl, this]
      omega

/-- `parseInt` undoes the decimal rendering of a natural number. -/
theorem parseIntJS_toDecimal (n : Nat) :
    parseIntJS (toDecimal n) = some (n : Int) := by
  cases h : toDecimal n with
  | nil => exact absurd h (toDecimal_ne_nil n)
  | cons c cs =>
    have hdig : ∀ x ∈ c :: cs, isDigitChar x = true := h ▸ toDecimal_digits n
    have hc : isDigitChar c = true := hdig c (List.mem_cons_self c cs)
    have hminus : c ≠ '-' := by rintro rfl; simp [isDigitChar] at hc
    have hplus : c ≠ '+' := by rintro rfl; simp [isDigitChar] at hc
    have htake : (c :: cs).takeWhile isDigitChar = c :: cs :=
      List.takeWhile_eq_self_iff.mpr hdig
    have hval : digitsToNat (c :: cs) = n := h ▸ digitsToNat_toDecimal n
    simp [parseIntJS, hminus, hplus, parseDigits, htake, hval]

/-! ## Helper lemmas: underscore splitting -/

/-- Splitting always produces at least one part. -/
theorem splitUnderscore_ne_nil (l : List Char) : splitUnderscore l ≠ [] := by
  induction l with
  | nil => simp [splitUnderscore]
  | cons c cs ih =>
    by_cases h : c = '_'
    · simp [splitUnderscore, h]
    · simp only [splitUnderscore, if_neg h]
      cases hs : splitUnderscore cs <;> simp

/-- No part produced by splitting contains an underscore. -/
theorem splitUnderscore_no_underscore (l : List Char) :
    ∀ p ∈ splitUnderscore l, '_' ∉ p := by
  induction l with
  | nil =>
    intro p hp
    rw [show splitUnderscore [] = [[]] from rfl] at hp
    rw [List.mem_singleton.mp hp]
    simp
  | cons c cs ih =>
    intro p hp
    by_cases h : c = '_'
    · rw [show splitUnderscore (c :: cs) = [] :: splitUnderscore cs from by
        simp [splitUnderscore, h]] at hp
      rcases List.mem_cons.mp hp with rfl | hp
      · simp
      · exact ih p hp
    · simp only [splitUnderscore, if_neg h] at hp
      cases hs : splitUnderscore cs with
      | nil => exact absurd hs (splitUnderscore_ne_nil cs)
      | cons q qs =>
        rw [hs] at hp
        rcases List.mem_cons.mp hp with rfl | hp
        · intro hmem
          rcases List.mem_cons.mp hmem with hcu | hmem
          · exact h hcu.symm
          · exact ih q (hs ▸ List.mem_cons_self q qs) hmem
        · exact ih p (hs ▸ List.mem_cons_of_mem q hp)

/-- Splitting an underscore-free list yields that list as the only part. -/
theorem splitUnderscore_of_no_underscore (l : List Char) (h : '_' ∉ l) :
    splitUnderscore l = [l] := by
  induction l with
  | nil => rfl
  | cons c cs ih =>
    have hc : c ≠ '_' := fun hc => h (hc ▸ List.mem_cons_self c cs)
    have hcs : '_' ∉ cs := fun hm => h (List.mem_cons_of_mem c hm)
    simp only [splitUnderscore, if_neg hc, ih hcs]

/-- Splitting after an underscore-free segment peels that segment off. -/
theorem splitUnderscore_append (a : List Char) (rest : List Char)
    (h : '_' ∉ a) :
    splitUnderscore (a ++ '_' :: rest) = a :: splitUnderscore rest := by
  induction a with
  | nil => simp [splitUnderscore]
  | cons c a' ih =>
    have hc : c ≠ '_' := fun hc => h (hc ▸ List.mem_cons_self c a')
    have ha' : '_' ∉ a' := fun hm => h (List.mem_cons_of_mem c hm)
    simp only [List.cons_append, splitUnderscore, if_neg hc, List.append_eq,
      ih ha']

/-- Joining the parts with underscores reconstructs the list. -/
theorem joinUnderscore_splitUnderscore (l : List Char) :
    joinUnderscore (splitUnderscore l) = l := by
  induction l with
  | nil => rfl
  | cons c cs ih =>
    by_cases h : c = '_'
    · subst h
      rw [show splitUnderscore ('_' :: cs) = [] :: splitUnderscore cs from by
        simp [splitUnderscore]]
      cases hs : splitUnderscore cs with
      | nil => exact absurd hs (splitUnderscore_ne_nil cs)
      | cons q qs =>
        rw [hs] at ih
        show [] ++ '_' :: joinUnderscore (q :: qs) = '_' :: cs
        rw [List.nil_append, ih]
    · simp only [splitUnderscore, if_neg h]
      cases hs : splitUnderscore cs with
      | nil => exact absurd hs (splitUnderscore_ne_nil cs)
      | cons q qs =>
        rw [hs] at ih
        cases qs with
        | nil =>
          show c :: q = c :: cs
          rw [show joinUnderscore [q] = q from rfl] at ih
          rw [ih]
        | cons r rs =>
          show (c :: q) ++ '_' :: joinUnderscore (r :: rs) = c :: cs
          rw [show joinUnderscore (q :: r :: rs)
                = q ++ '_' :: joinUnderscore (r :: rs) from rfl] at ih
          rw [List.cons_append, ih]

/-- Two underscore-free segments closed by an underscore and aligned by the
prefix relation are equal. -/
theorem underscore_seg_unique (u : List Char) :
    ∀ (v x y : List Char), '_' ∉ u → '_' ∉ v →
      u ++ '_' :: x <+: v ++ '_' :: y → u = v := by
  induction u with
  | nil =>
    intro v x y _ hv hpre
    cases v with
    | nil => rfl
    | cons d v' =>
      rw [List.nil_append, List.cons_append] at hpre
      have := (List.cons_prefix_cons.mp hpre).1
      exact absurd (this ▸ List.mem_cons_self d v') hv
  | cons c u' ih =>
    intro v x y hu hv hpre
    cases v with
    | nil =>
      rw [List.nil_append, List.cons_append] at hpre
      have := (List.cons_prefix_cons.mp hpre).1
      exact absurd (this ▸ List.mem_cons_self c u') hu
    | cons d v' =>
      rw [List.cons_append, List.cons_append] at hpre
      obtain ⟨rfl, htail⟩ := List.cons_prefix_cons.mp hpre
      have hu' : '_' ∉ u' := fun hm => hu (List.mem_cons_of_mem c hm)
      have hv' : '_' ∉ v' := fun hm => hv (List.mem_cons_of_mem c hm)
      rw [ih v' x y hu' hv' htail]

/-! ## Helper lemmas: the alarm facility -/

/-- The reminder-key stem is a prefix of every reminder key built from the
same todo id. -/
theorem reminderKeyStem_isPrefixOf_key (todoId : List Char) (m : Nat) :
    (reminderKeyStem todoId).isPrefixOf (reminderKey todoId m) = true := by
  rw [isPrefixOf_eq_true_iff, reminderKey]
  exact List.prefix_append _ _

/-- Clearing a batch of alarms one by one removes exactly the alarms whose
name occurs in the batch. -/
theorem foldl_alarmsClear (m : List Alarm) :
    ∀ st : List Alarm,
      m.foldl (fun s a => alarmsClear s a.name) st
        = st.filter (fun b => !(m.any (fun a => b.name == a.name))) := by
  induction m with
  | nil => intro st; simp
  | cons a m' ih =>
    intro st
    rw [List.foldl_cons, ih (alarmsClear st a.name)]
    unfold alarmsClear
    rw [List.filter_filter]
    apply List.filter_congr
    intro b _
    rw [List.any_cons, Bool.not_or, Bool.and_comm]

/-- `cancelReminders` keeps exactly the alarms whose name does not start with
the todo's reminder-key stem. -/
theorem cancelReminders_eq_filter (todoId : List Char) (alarms : List Alarm) :
    cancelReminders todoId alarms
      = alarms.filter
          (fun a => !((reminderKeyStem todoId).isPrefixOf a.name)) := by
  unfold cancelReminders
  rw [foldl_alarmsClear]
  apply List.filter_congr
  intro b hb
  congr 1
  by_cases hp : (reminderKeyStem todoId).isPrefixOf b.name = true
  · rw [hp]
    exact List.any_eq_true.mpr
      ⟨b, List.mem_filter.mpr ⟨hb, hp⟩, by simp⟩
  · have hp' : (reminderKeyStem todoId).isPrefixOf b.name = false :=
      Bool.not_eq_true _ ▸ Bool.of_not_eq_true hp
    rw [hp']
    rw [List.any_eq_false]
    intro a ha
    intro hba
    have hname : b.name = a.name := eq_of_beq hba
    have : (reminderKeyStem todoId).isPrefixOf a.name = true :=
      (List.mem_filter.mp ha).2
    rw [← hname, hp'] at this
    exact Bool.false_ne_true this

/-- Filtering with `p` after keeping only elements failing `p` (possibly
thinned by a further filter) leaves nothing. -/
theorem filter_p_of_filter_not_p (l : List α) (p q : α → Bool) :
    ((l.filter (fun a => !(p a))).filter q).filter p = [] := by
  rw [List.filter_filter, List.filter_filter]
  apply List.filter_eq_nil_iff.mpr
  intro a _
  cases hp : p a <;> simp [hp]

/-! ## Theorems: reminder scheduler -/

/-- C4: `scheduleReminder` computes the fire instant
`startDate - reminderMinutes*60*1000`; when that instant is not in the
future the live alarms are left exactly unchanged (no timer registered), and
when it is in the future the alarm facility afterwards holds exactly one
alarm keyed `reminder_<todoId>_<reminderMinutes>` — a one-shot at the fire
instant — while the alarms under every other name are unchanged. -/
theorem scheduleReminder_past_noop_future_one (now startDate : Int)
    (todoId : List Char) (m : Nat) (alarms : List Alarm) :
    (startDate - (m : Int) * 60 * 1000 ≤ now →
      scheduleReminder now todoId startDate m alarms = alarms) ∧
    (now < startDate - (m : Int) * 60 * 1000 →
      (scheduleReminder now todoId startDate m alarms).filter
          (fun a => a.name == reminderKey todoId m)
        = [{ name := reminderKey todoId m,
             scheduledTime := startDate - (m : Int) * 60 * 1000 }] ∧
      (scheduleReminder now todoId startDate m alarms).filter
          (fun a => !(a.name == reminderKey todoId m))
        = alarms.filter (fun a => !(a.name == reminderKey todoId m))) := by
  constructor
  · intro hp
    unfold scheduleReminder
    rw [if_pos hp]
  · intro hf
    have hneg : ¬ (startDate - (m : Int) * 60 * 1000 ≤ now) := by omega
    unfold scheduleReminder alarmsCreate
    rw [if_neg hneg]
    constructor
    · rw [List.filter_append, List.filter_filter]
      have h1 : alarms.filter
          (fun a => (a.name == reminderKey todoId m)
            && !(a.name == reminderKey todoId m)) = [] := by
        apply List.filter_eq_nil_iff.mpr
        intro a _
        cases h : a.name == reminderKey todoId m <;> simp [h]
      rw [h1, List.nil_append]
      simp
    · rw [List.filter_append, List.filter_filter]
      have h2 : ([⟨reminderKey todoId m, startDate - (m : Int) * 60 * 1000⟩]
            : List Alarm).filter
          (fun a => !(a.name == reminderKey todoId m)) = [] := by
        simp
      rw [h2, List.append_nil]
      apply List.filter_congr
      intro a _
      cases h : a.name == reminderKey todoId m <;> simp [h]

/-- C4 witness: with `now = 0`, a reminder whose fire instant `-30000` has
passed registers nothing, and one whose fire instant `40000` is in the future
puts exactly the keyed alarm into an initially empty facility. -/
theorem scheduleReminder_witness :
    scheduleReminder 0 ['a'] 30000 1 [] = [] ∧
    (scheduleReminder 0 ['a'] 100000 1 []).filter
        (fun a => a.name == reminderKey ['a'] 1)
      = [{ name := reminderKey ['a'] 1, scheduledTime := 100000 - 60000 }] := by
  constructor
  · exact (scheduleReminder_past_noop_future_one 0 30000 ['a'] 1 []).1
      (by norm_num)
  · have h := ((scheduleReminder_past_noop_future_one 0 100000 ['a'] 1 []).2
      (by norm_num)).1
    rw [h]
    norm_num

/-- C10: `cancelReminders(todoId)` keeps an alarm live exactly when its name
does not extend `reminder_<todoId>_`; in particular the reminder key of any
other todo whose id is `todoId` + `"_"` + suffix also matches this stem, so
that todo's timers are cancelled as well. -/
theorem cancelReminders_exact (todoId : List Char) (alarms : List Alarm) :
    (∀ a : Alarm, a ∈ cancelReminders todoId alarms ↔
        a ∈ alarms ∧ (reminderKeyStem todoId).isPrefixOf a.name = false) ∧
    (∀ (suffix : List Char) (m : Nat),
        (reminderKeyStem todoId).isPrefixOf
          (reminderKey (todoId ++ '_' :: suffix) m) = true) := by
  constructor
  · intro a
    rw [cancelReminders_eq_filter, List.mem_filter]
    simp
  · intro suffix m
    rw [isPrefixOf_eq_true_iff]
    refine ⟨suffix ++ "_".data ++ toDecimal m, ?_⟩
    simp [reminderKey, reminderKeyStem]

/-- After cancelling a todo's reminders and scheduling one future reminder
for it, that reminder's alarm is the only live alarm matching the todo's
reminder-key stem. -/
theorem cancel_schedule_stem_filter (now startDate : Int) (todoId : List Char)
    (m : Nat) (st : List Alarm)
    (hfut : ¬ (startDate - (m : Int) * 60 * 1000 ≤ now)) :
    (scheduleReminder now todoId startDate m
        (cancelReminders todoId st)).filter
        (fun a => (reminderKeyStem todoId).isPrefixOf a.name)
      = [{ name := reminderKey todoId m,
           scheduledTime := startDate - (m : Int) * 60 * 1000 }] := by
  unfold scheduleReminder alarmsCreate
  rw [if_neg hfut, cancelReminders_eq_filter, List.filter_append,
      filter_p_of_filter_not_p, List.nil_append]
  simp [reminderKeyStem_isPrefixOf_key]

/-- C5: `rescheduleReminders` is cancel-then-schedule — it first cancels every
live reminder of the todo and then schedules one alarm per lead time — so
rescheduling with `[15, 60]` and then rescheduling with `[30]` (all fire
instants in the future) leaves exactly one live alarm for the todo, the one
keyed for lead time 30. -/
theorem reschedule_full_replace (now startDate : Int) (todoId : List Char)
    (alarms : List Alarm) (h : now < startDate - 60 * 60 * 1000) :
    (∀ (reminders : List Nat) (st : List Alarm),
        rescheduleReminders now todoId startDate reminders st
          = reminders.foldl
              (fun s m => scheduleReminder now todoId startDate m s)
              (cancelReminders todoId st)) ∧
    (rescheduleReminders now todoId startDate [30]
        (rescheduleReminders now todoId startDate [15, 60] alarms)).filter
        (fun a => (reminderKeyStem todoId).isPrefixOf a.name)
      = [{ name := reminderKey todoId 30,
           scheduledTime := startDate - 30 * 60 * 1000 }] := by
  refine ⟨fun reminders st => rfl, ?_⟩
  have h30 : ¬ (startDate - ((30 : Nat) : Int) * 60 * 1000 ≤ now) := by
    push_cast
    omega
  generalize rescheduleReminders now todoId startDate [15, 60] alarms = X
  have hout : rescheduleReminders now todoId startDate [30] X
      = scheduleReminder now todoId startDate 30 (cancelReminders todoId X) :=
    rfl
  rw [hout, cancel_schedule_stem_filter now startDate todoId 30 X h30]
  norm_num

/-- C5 witness: starting from no alarms at `now = 0` with a task starting at
instant 7200000, rescheduling with lead times `[15, 60]` and then `[30]`
leaves exactly the lead-30 alarm live for the task. -/
theorem reschedule_full_replace_witness :
    (rescheduleReminders 0 ['a'] 7200000 [30]
        (rescheduleReminders 0 ['a'] 7200000 [15, 60] [])).filter
        (fun a => (reminderKeyStem ['a']).isPrefixOf a.name)
      = [{ name := reminderKey ['a'] 30,
           scheduledTime := 7200000 - 30 * 60 * 1000 }] :=
  (reschedule_full_replace 0 7200000 ['a'] [] (by norm_num)).2

/-- C9 counterexample: for the task id `"a_b"` — any id containing an
underscore — the formatted key `reminder_a_b_15` splits into four parts, so
parsing recovers nothing at all rather than the original
`("a_b", 15)` pair: the round-trip fails. -/
theorem reminder_key_roundtrip_cex :
    reminderKey ['a', '_', 'b'] 15 = "reminder_a_b_15".data ∧
    parseReminderKey (reminderKey ['a', '_', 'b'] 15) = none := by
  decide

/-- C9 as amended: for every task id that contains no underscore and every
lead-time value, formatting the timer key `reminder_<taskId>_<leadTime>` and
parsing it back as the wake handler and `getUpcomingReminders` do recovers
exactly the original pair. -/
theorem reminder_key_roundtrip (taskId : List Char) (m : Nat)
    (h : '_' ∉ taskId) :
    parseReminderKey (reminderKey taskId m) = some (taskId, some (m : Int)) := by
  have h1 : "reminder_".data = "reminder".data ++ ['_'] := rfl
  have h2 : "_".data = ['_'] := rfl
  have hform : reminderKey taskId m
      = "reminder".data ++ '_' :: (taskId ++ '_' :: toDecimal m) := by
    rw [reminderKey, reminderKeyStem, h1, h2]
    simp
  have hpre : "reminder_".data.isPrefixOf (reminderKey taskId m) = true := by
    rw [isPrefixOf_eq_true_iff, hform, h1]
    refine ⟨taskId ++ '_' :: toDecimal m, ?_⟩
    simp
  have hsplit : splitUnderscore (reminderKey taskId m)
      = ["reminder".data, taskId, toDecimal m] := by
    rw [hform, splitUnderscore_append ("reminder".data) _ (by decide),
        splitUnderscore_append taskId _ h,
        splitUnderscore_of_no_underscore _ (toDecimal_no_underscore m)]
  simp [parseReminderKey, hpre, hsplit, parseIntJS_toDecimal]

/-- C9 witness: the key for task id `"a"` with lead time 15 round-trips. -/
theorem reminder_key_roundtrip_witness :
    parseReminderKey (reminderKey ['a'] 15) = some (['a'], some 15) :=
  reminder_key_roundtrip ['a'] 15 (by decide)

/-- C6: assuming the data-model invariant that todo ids are unique, a fired
alarm makes the listener dispatch a reminder notification exactly when the
alarm name has the shape `reminder_<taskId>_<lead>` with exactly three
underscore-separated parts (so neither embedded string contains an
underscore) and a todo with that id exists and is not completed.  In every
other case — malformed name, deleted todo, completed todo — the result is
`none`: the handler is total, so nothing is dispatched and no error is
raised. -/
theorem reminder_wake_liveness (todos : List Todo) (alarmName : List Char)
    (hnodup : (todos.map (·.id)).Nodup) :
    (onAlarmReminder todos alarmName).isSome = true ↔
      ∃ taskId lead : List Char, '_' ∉ taskId ∧ '_' ∉ lead ∧
        alarmName = "reminder_".data ++ taskId ++ "_".data ++ lead ∧
        ∃ t ∈ todos, t.id = taskId ∧ t.completed = false := by
  have h1 : "reminder_".data = "reminder".data ++ ['_'] := rfl
  have h2 : "_".data = ['_'] := rfl
  constructor
  · intro h
    by_cases hRef : alarmName = "refreshData".data
    · simp [onAlarmReminder, hRef] at h
    by_cases hPre : "reminder_".data.isPrefixOf alarmName = true
    case neg => simp [onAlarmReminder, hRef, hPre] at h
    have h' : (handleReminderAlarm todos alarmName).isSome = true := by
      simpa [onAlarmReminder, hRef, hPre] using h
    unfold handleReminderAlarm at h'
    split at h'
    case _ x p1 p2 heq =>
      have hxu : '_' ∉ x :=
        splitUnderscore_no_underscore alarmName x (by rw [heq]; simp)
      have hp1u : '_' ∉ p1 :=
        splitUnderscore_no_underscore alarmName p1 (by rw [heq]; simp)
      have hp2u : '_' ∉ p2 :=
        splitUnderscore_no_underscore alarmName p2 (by rw [heq]; simp)
      have hjoin := joinUnderscore_splitUnderscore alarmName
      rw [heq] at hjoin
      have hj : joinUnderscore [x, p1, p2] = x ++ '_' :: (p1 ++ '_' :: p2) :=
        rfl
      rw [hj] at hjoin
      have hx : "reminder".data = x := by
        apply underscore_seg_unique ("reminder".data) x [] (p1 ++ '_' :: p2)
          (by decide) hxu
        have hp := (isPrefixOf_eq_true_iff _ _).mp hPre
        rw [h1, ← hjoin] at hp
        exact hp
      split at h'
      case _ todo hfind =>
        by_cases hcomp : todo.completed
        · rw [hcomp] at h'
          simp at h'
        · have hbeq := List.find?_some hfind
          refine ⟨p1, p2, hp1u, hp2u, ?_, todo,
            List.mem_of_find?_eq_some hfind, eq_of_beq hbeq,
            Bool.not_eq_true _ ▸ Bool.of_not_eq_true hcomp⟩
          rw [← hjoin, ← hx, h1, h2]
          simp
      case _ hfind =>
        simp at h'
    case _ =>
      simp at h'
  · rintro ⟨taskId, lead, hT, hL, rfl, t, htmem, htid, htcomp⟩
    have hRef : ("reminder_".data ++ taskId ++ "_".data ++ lead
        == "refreshData".data) = false := by
      apply beq_eq_false_iff_ne.mpr
      intro heq
      have hm : ("reminder_".data ++ taskId ++ "_".data ++ lead).get? 2
          = some 'm' := rfl
      rw [heq] at hm
      exact absurd hm (by decide)
    have hPre : "reminder_".data.isPrefixOf
        ("reminder_".data ++ taskId ++ "_".data ++ lead) = true := by
      rw [isPrefixOf_eq_true_iff]
      exact ⟨taskId ++ "_".data ++ lead, by simp⟩
    have hform : "reminder_".data ++ taskId ++ "_".data ++ lead
        = "reminder".data ++ '_' :: (taskId ++ '_' :: lead) := by
      rw [h1, h2]
      simp
    have hsplit :
        splitUnderscore ("reminder_".data ++ taskId ++ "_".data ++ lead)
          = ["reminder".data, taskId, lead] := by
      rw [hform, splitUnderscore_append _ _ (by decide),
          splitUnderscore_append _ _ hT,
          splitUnderscore_of_no_underscore _ hL]
    have hfindSome : (todos.find? (fun t' => t'.id == taskId)).isSome = true :=
      List.find?_isSome.mpr ⟨t, htmem, by rw [htid]; simp⟩
    obtain ⟨t', hfind⟩ := Option.isSome_iff_exists.mp hfindSome
    have hbeq' := List.find?_some hfind
    have ht'id : t'.id = taskId := eq_of_beq hbeq'
    have ht't : t' = t :=
      List.inj_on_of_nodup_map hnodup
        (List.mem_of_find?_eq_some hfind) htmem (by rw [ht'id, htid])
    rw [ht't] at hfind
    unfold onAlarmReminder handleReminderAlarm
    rw [hRef, hsplit, hPre]
    simp [hfind, htcomp]

/-- C6 witness: with the single active todo `a`, firing the alarm
`reminder_a_5` dispatches a reminder notification. -/
theorem reminder_wake_liveness_witness :
    (onAlarmReminder [{ id := ['a'], title := ['T'], completed := false }]
        "reminder_a_5".data).isSome = true :=
  (reminder_wake_liveness [{ id := ['a'], title := ['T'], completed := false }]
      "reminder_a_5".data (by decide)).mpr
    ⟨['a'], ['5'], by decide, by decide, by decide,
      { id := ['a'], title := ['T'], completed := false },
      by simp, rfl, rfl⟩

end ExtensionTodo
